import Mathlib

/-!
Shallow embedding of the Join-to-Create temporary voice-channel subsystem
(`Python_Files/join_to_create.py`) of the Supporter bot, together with
theorems settling the specification's claims about it.

Modelling conventions:
- Python dicts become association lists with first-match lookup (`dget`),
  in-place overwrite (`dset`) and key removal (`ddel`); the keys of every
  dict-valued field are unique, an invariant the operations preserve.
- Wall-clock instants (both `time.time()` floats and `datetime` values)
  become integers; `total_seconds()` differences become integer differences.
- Awaited platform and database calls are parameters of the embedded
  function: each call-site outcome (row found / no row / raised error,
  channel exists or not, move succeeded or raised) is an explicit argument,
  and a raised exception makes the function return the state it had
  mutated so far, exactly as the Python handler does when an exception
  escapes to the dispatcher.
-/

namespace JTC

/-- First-match lookup in an association list (Python `d[k]` / `k in d`). -/
def dget {κ α : Type} [DecidableEq κ] : List (κ × α) → κ → Option α
  | [], _ => none
  | p :: rest, key => if p.1 = key then some p.2 else dget rest key

/-- Overwrite-or-append assignment (Python `d[k] = v`). -/
def dset {κ α : Type} [DecidableEq κ] : List (κ × α) → κ → α → List (κ × α)
  | [], key, v => [(key, v)]
  | p :: rest, key, v => if p.1 = key then (key, v) :: rest else p :: dset rest key v

/-- Key removal (Python `del d[k]` / `d.pop(k, None)`). -/
def ddel {κ α : Type} [DecidableEq κ] : List (κ × α) → κ → List (κ × α)
  | [], _ => []
  | p :: rest, key => if p.1 = key then ddel rest key else p :: ddel rest key

/-- The keys of an association list. -/
def keys {κ α : Type} (m : List (κ × α)) : List κ := m.map Prod.fst

/-- A well-formed dict has pairwise distinct keys. -/
def NodupKeys {κ α : Type} (m : List (κ × α)) : Prop := (keys m).Nodup

instance {κ α : Type} [DecidableEq κ] (m : List (κ × α)) : Decidable (NodupKeys m) :=
  inferInstanceAs (Decidable (keys m).Nodup)

/-! ## Data model -/

/-- One row of `join_to_create_config` as consumed by the runtime path
(`SELECT * ... WHERE guild_id = $1 AND enabled = TRUE`). -/
structure GuildConfig where
  trigger_channel_id : Nat
  category_id : Nat
  delete_delay_seconds : Int
  user_cooldown_seconds : Int
  private_vc_role_id : Option Nat
  force_private : Bool
  min_session_minutes : Int
deriving DecidableEq

/-- One row of `voice_temp_channels`. -/
structure DbRecord where
  guild_id : Nat
  channel_id : Nat
  trigger_channel_id : Nat
  category_id : Nat
  creator_user_id : Nat
  creator_username : String
  created_at : Int
  is_private : Bool
  owner_user_id : Option Nat
  owner_username : Option String
  deleted_at : Option Int
  total_lifetime_seconds : Option Int
deriving DecidableEq

/-- A live voice channel on the platform, as the bot sees it through
`bot.get_channel` / `guild.get_channel` and `channel.members`. -/
structure ChannelInfo where
  guild_id : Nat
  member_count : Nat
deriving DecidableEq

/-- External ground truth: the persistent store plus the platform's live
guilds, voice channels and category channels. -/
structure World where
  db : List DbRecord
  platform : List (Nat × ChannelInfo)
  guilds : List Nat
  categories : List (Nat × Nat)
deriving DecidableEq

/-- An `asyncio.Task` handle as far as the manager observes it:
`task.done()` and `task.cancel()`. -/
structure TaskHandle where
  tid : Nat
  done : Bool
deriving DecidableEq

/-- A cached config entry: the `(config, timestamp)` pair of `config_cache`. -/
structure CacheEntry where
  config : GuildConfig
  timestamp : Int
deriving DecidableEq

/-- The manager's mutable in-memory state
(`config_cache`, `user_cooldowns`, `guild_rate_limits`, `deletion_tasks`,
`temp_channels`). -/
structure BotState where
  config_cache : List (Nat × CacheEntry)
  user_cooldowns : List ((Nat × Nat) × Int)
  guild_rate_limits : List (Nat × List Int)
  deletion_tasks : List (Nat × TaskHandle)
  temp_channels : List (Nat × Int)
deriving DecidableEq

/-- Outcome of one awaited `conn.fetchrow` on the config table: a row,
no enabled row, or a raised storage error (timeout, connection loss). -/
inductive FetchOutcome where
  | row (cfg : GuildConfig)
  | noRow
  | failure
deriving DecidableEq

/-- `CACHE_DURATION = 300` seconds. -/
def CACHE_DURATION : Int := 300

/-! ## ConfigStore: `get_guild_config` -/

/-- The fetch-and-recache tail of `get_guild_config`: runs the database
query; a raised error propagates (`Except.error`), a found row is cached
with the current time, an absent row returns `None` without caching. -/
def fetch_and_cache (cache : List (Nat × CacheEntry)) (guild_id : Nat) (now : Int)
    (fetch : FetchOutcome) : Except Unit (Option GuildConfig × List (Nat × CacheEntry)) :=
  match fetch with
  | FetchOutcome.failure => Except.error ()
  | FetchOutcome.row cfg => Except.ok (some cfg, dset cache guild_id ⟨cfg, now⟩)
  | FetchOutcome.noRow => Except.ok (none, cache)

/-- `get_guild_config`: returns the cached config when the entry is
fresher than `CACHE_DURATION`, otherwise performs the storage fetch. -/
def get_guild_config (cache : List (Nat × CacheEntry)) (guild_id : Nat) (now : Int)
    (fetch : FetchOutcome) : Except Unit (Option GuildConfig × List (Nat × CacheEntry)) :=
  match dget cache guild_id with
  | some entry =>
      if now - entry.timestamp < CACHE_DURATION then
        Except.ok (some entry.config, cache)
      else
        fetch_and_cache cache guild_id now fetch
  | none => fetch_and_cache cache guild_id now fetch

/-! ## AbuseGuard: `check_user_cooldown` and `check_guild_rate_limit` -/

/-- `check_user_cooldown`: rejects when the stored last-creation time is
within `cooldown_seconds` of `now`; otherwise records `now` and accepts. -/
def check_user_cooldown (user_cooldowns : List ((Nat × Nat) × Int))
    (user_id guild_id : Nat) (cooldown_seconds : Int) (now : Int) :
    Bool × List ((Nat × Nat) × Int) :=
  let key := (guild_id, user_id)
  match dget user_cooldowns key with
  | some last_creation =>
      if now - last_creation < cooldown_seconds then
        (false, user_cooldowns)
      else
        (true, dset user_cooldowns key now)
  | none => (true, dset user_cooldowns key now)

/-- `check_guild_rate_limit`: reassigns the guild's window to the entries
newer than `now - 60`, rejects when the purged window has reached
`max_per_minute`, otherwise appends `now` and accepts. -/
def check_guild_rate_limit (guild_rate_limits : List (Nat × List Int))
    (guild_id : Nat) (max_per_minute : Nat) (now : Int) :
    Bool × List (Nat × List Int) :=
  let cutoff := now - 60
  let current := (dget guild_rate_limits guild_id).getD []
  let purged := current.filter (fun ts => decide (cutoff < ts))
  if max_per_minute ≤ purged.length then
    (false, dset guild_rate_limits guild_id purged)
  else
    (true, dset guild_rate_limits guild_id (purged ++ [now]))

/-! ## Database updates (the SQL statements of `join_to_create.py`) -/

/-- `UPDATE voice_temp_channels SET deleted_at = NOW(),
total_lifetime_seconds = $2 WHERE channel_id = $1` (timer path and the
reconciliation path that deletes an orphaned empty channel). -/
def db_finalize (db : List DbRecord) (channel_id : Nat) (now lifetime : Int) :
    List DbRecord :=
  db.map (fun r =>
    if r.channel_id = channel_id then
      { r with deleted_at := some now, total_lifetime_seconds := some lifetime }
    else r)

/-- `UPDATE ... SET deleted_at = NOW(), total_lifetime_seconds = $2
WHERE channel_id = $1 AND deleted_at IS NULL` (manual-deletion handler). -/
def db_finalize_if_live (db : List DbRecord) (channel_id : Nat) (now lifetime : Int) :
    List DbRecord :=
  db.map (fun r =>
    if r.channel_id = channel_id ∧ r.deleted_at = none then
      { r with deleted_at := some now, total_lifetime_seconds := some lifetime }
    else r)

/-- `UPDATE ... SET deleted_at = NOW() WHERE channel_id = $1`
(reconciliation when the guild or the channel no longer exists):
`total_lifetime_seconds` is not touched. -/
def db_mark_deleted (db : List DbRecord) (channel_id : Nat) (now : Int) :
    List DbRecord :=
  db.map (fun r =>
    if r.channel_id = channel_id then { r with deleted_at := some now } else r)

/-! ## Observable effects emitted by the handlers -/

/-- Externally visible actions a handler performs, in program order. -/
inductive Effect where
  | cancelTask (tid : Nat)
  | installTask (tid : Nat) (channel_id : Nat) (delay : Int)
  | createdChannel (channel_id : Nat)
  | insertedRecord (channel_id : Nat)
  | movedMember (user_id channel_id : Nat)
  | deletedChannel (channel_id : Nat)
  | sentControlPanel (channel_id : Nat)
deriving DecidableEq

/-- The shared snippet `if channel.id in self.deletion_tasks: ... if not
task.done(): task.cancel(); del self.deletion_tasks[channel.id]`. -/
def cancel_pending_task (dt : List (Nat × TaskHandle)) (channel_id : Nat) :
    List (Nat × TaskHandle) × List Effect :=
  match dget dt channel_id with
  | some t => (ddel dt channel_id, if t.done then [] else [Effect.cancelTask t.tid])
  | none => (dt, [])

/-! ## DeletionScheduler -/

/-- `handle_temp_channel_leave`: cancels and removes any existing task for
the channel, and when the channel is empty fetches the config (falling
back to a 20-second delay when no config row exists) and installs a fresh
deletion task; a raised config-fetch error escapes before the install. -/
def handle_temp_channel_leave (st : BotState) (channel_id guild_id : Nat)
    (member_count : Nat) (now : Int) (fetch : FetchOutcome) (fresh : TaskHandle) :
    BotState × List Effect :=
  let cp := cancel_pending_task st.deletion_tasks channel_id
  let st1 := { st with deletion_tasks := cp.1 }
  if member_count = 0 then
    match get_guild_config st1.config_cache guild_id now fetch with
    | Except.error _ => (st1, cp.2)
    | Except.ok (cfgOpt, cache1) =>
        let delay := match cfgOpt with
          | some cfg => cfg.delete_delay_seconds
          | none => 20
        ({ st1 with config_cache := cache1,
                    deletion_tasks := dset st1.deletion_tasks channel_id fresh },
         cp.2 ++ [Effect.installTask fresh.tid channel_id delay])
  else (st1, cp.2)

/-- The body of `schedule_channel_deletion` once the sleep has elapsed
uncancelled: resolve the channel (`bot.get_channel`), re-check emptiness,
compute the lifetime from the in-memory `created_at` (0 when absent),
finalize the record, delete the channel, and drop both tracking entries;
a raised platform delete leaves the tracking entries in place. -/
def schedule_channel_deletion (st : BotState) (w : World) (channel_id : Nat)
    (now : Int) (delete_ok : Bool) : BotState × World × List Effect :=
  match dget w.platform channel_id with
  | none => (st, w, [])
  | some info =>
      if 0 < info.member_count then (st, w, [])
      else
        let lifetime : Int :=
          match dget st.temp_channels channel_id with
          | some created_at => now - created_at
          | none => 0
        let db1 := db_finalize w.db channel_id now lifetime
        if delete_ok then
          ({ st with temp_channels := ddel st.temp_channels channel_id,
                     deletion_tasks := ddel st.deletion_tasks channel_id },
           { w with db := db1, platform := ddel w.platform channel_id },
           [Effect.deletedChannel channel_id])
        else
          (st, { w with db := db1 }, [])

/-- `on_guild_channel_delete`: on an operator deletion of a tracked voice
channel, finalize the live record with the elapsed lifetime, drop the
`temp_channels` entry and cancel-and-drop any pending deletion task. -/
def on_guild_channel_delete (st : BotState) (w : World) (channel_id : Nat)
    (is_voice : Bool) (now : Int) : BotState × World × List Effect :=
  if is_voice then
    match dget st.temp_channels channel_id with
    | some created_at =>
        let lifetime := now - created_at
        let db1 := db_finalize_if_live w.db channel_id now lifetime
        let cp := cancel_pending_task st.deletion_tasks channel_id
        ({ st with temp_channels := ddel st.temp_channels channel_id,
                   deletion_tasks := cp.1 },
         { w with db := db1 }, cp.2)
    | none => (st, w, [])
  else (st, w, [])

/-! ## ReconciliationService: `cleanup_orphaned_channels` -/

/-- `guild.get_channel(channel_id)`: the channel, provided it exists and
belongs to the guild. -/
def channel_in_guild (w : World) (guild_id channel_id : Nat) : Option ChannelInfo :=
  match dget w.platform channel_id with
  | some info => if info.guild_id = guild_id then some info else none
  | none => none

/-- One iteration of the orphan-cleanup loop, for one live-looking
record: a missing guild or channel marks the record deleted (no
lifetime); an existing empty channel is deleted and finalized with a
lifetime (unless the platform delete raises, which leaves everything as
it was); an occupied channel is resumed into `temp_channels`. -/
def cleanup_one (st : BotState) (w : World) (now : Int) (delete_fails : List Nat)
    (r : DbRecord) : BotState × World :=
  if r.guild_id ∈ w.guilds then
    match channel_in_guild w r.guild_id r.channel_id with
    | none => (st, { w with db := db_mark_deleted w.db r.channel_id now })
    | some info =>
        if info.member_count = 0 then
          if r.channel_id ∈ delete_fails then (st, w)
          else
            (st, { w with platform := ddel w.platform r.channel_id,
                          db := db_finalize w.db r.channel_id now (now - r.created_at) })
        else
          ({ st with temp_channels := dset st.temp_channels r.channel_id r.created_at }, w)
  else
    (st, { w with db := db_mark_deleted w.db r.channel_id now })

/-- `cleanup_orphaned_channels`: snapshot every record with
`deleted_at IS NULL`, then process each snapshot row in order. -/
def cleanup_orphaned_channels (st : BotState) (w : World) (now : Int)
    (delete_fails : List Nat) : BotState × World :=
  (w.db.filter (fun r => r.deleted_at.isNone)).foldl
    (fun acc r => cleanup_one acc.1 acc.2 now delete_fails r) (st, w)

/-! ## ChannelOrchestrator: `handle_trigger_join` and `on_voice_state_update` -/

/-- The shape decision: private when `force_private` is set, or when the
member holds the configured private role. -/
def decide_private (config : GuildConfig) (member_roles : List Nat) : Bool :=
  config.force_private ||
    (match config.private_vc_role_id with
     | some rid => member_roles.contains rid
     | none => false)

/-- `handle_trigger_join`: cooldown check, rate-limit check, shape
decision, category check, channel creation, in-memory tracking, record
insertion, member move; a failed move rolls back the channel and the
in-memory entry (`rollback_ok = false` models that rollback delete itself
raising, which the outer handler swallows). `create_outcome = none`
models `discord.Forbidden` from the creation call; `insert_ok = false`
models the awaited record INSERT raising, which the outer handler
swallows after the channel was created and tracked but before any row
exists or the move is attempted. -/
def handle_trigger_join (st : BotState) (w : World) (member_id : Nat)
    (member_roles : List Nat) (member_name : String) (guild_id : Nat)
    (config : GuildConfig) (now : Int) (create_outcome : Option Nat)
    (insert_ok : Bool) (move_ok : Bool) (rollback_ok : Bool) :
    BotState × World × List Effect :=
  let c1 := check_user_cooldown st.user_cooldowns member_id guild_id
              config.user_cooldown_seconds now
  if c1.1 = false then ({ st with user_cooldowns := c1.2 }, w, [])
  else
    let st1 := { st with user_cooldowns := c1.2 }
    let c2 := check_guild_rate_limit st1.guild_rate_limits guild_id 5 now
    let st2 := { st1 with guild_rate_limits := c2.2 }
    if c2.1 = false then (st2, w, [])
    else
      let is_private := decide_private config member_roles
      if (guild_id, config.category_id) ∈ w.categories then
        match create_outcome with
        | none => (st2, w, [])
        | some ch =>
            let st3 := { st2 with temp_channels := dset st2.temp_channels ch now }
            let wc : World := { w with platform := dset w.platform ch ⟨guild_id, 0⟩ }
            if insert_ok then
              let newRecord : DbRecord := {
                guild_id := guild_id, channel_id := ch,
                trigger_channel_id := config.trigger_channel_id,
                category_id := config.category_id,
                creator_user_id := member_id, creator_username := member_name,
                created_at := now, is_private := is_private,
                owner_user_id := if is_private then some member_id else none,
                owner_username := if is_private then some member_name else none,
                deleted_at := none, total_lifetime_seconds := none }
              let w1 : World := { wc with db := wc.db ++ [newRecord] }
              if move_ok then
                (st3,
                 { w1 with platform := dset w1.platform ch ⟨guild_id, 1⟩ },
                 [Effect.createdChannel ch, Effect.insertedRecord ch,
                  Effect.movedMember member_id ch] ++
                   (if is_private then [Effect.sentControlPanel ch] else []))
              else
                if rollback_ok then
                  ({ st3 with temp_channels := ddel st3.temp_channels ch },
                   { w1 with platform := ddel w1.platform ch },
                   [Effect.createdChannel ch, Effect.insertedRecord ch,
                    Effect.deletedChannel ch])
                else
                  (st3, w1,
                   [Effect.createdChannel ch, Effect.insertedRecord ch])
            else
              (st3, wc, [Effect.createdChannel ch])
      else (st2, w, [])

/-- `on_voice_state_update`: bot members return immediately; otherwise the
join-to-trigger branch runs (its config fetch aborting the whole handler
on a raised error), then the leave-from-temp branch. -/
def on_voice_state_update (st : BotState) (w : World) (member_id : Nat)
    (member_bot : Bool) (member_roles : List Nat) (member_name : String)
    (guild_id : Nat) (before after : Option Nat) (now : Int)
    (join_fetch : FetchOutcome) (create_outcome : Option Nat) (insert_ok : Bool)
    (move_ok : Bool) (rollback_ok : Bool) (leave_fetch : FetchOutcome)
    (fresh : TaskHandle) :
    BotState × World × List Effect :=
  if member_bot then (st, w, [])
  else
    let joined : Option (BotState × World × List Effect) :=
      match after with
      | some a =>
          if before ≠ some a then
            match get_guild_config st.config_cache guild_id now join_fetch with
            | Except.error _ => none
            | Except.ok (cfgOpt, cache1) =>
                let stb := { st with config_cache := cache1 }
                match cfgOpt with
                | some cfg =>
                    if a = cfg.trigger_channel_id then
                      some (handle_trigger_join stb w member_id member_roles
                              member_name guild_id cfg now create_outcome
                              insert_ok move_ok rollback_ok)
                    else some (stb, w, [])
                | none => some (stb, w, [])
          else some (st, w, [])
      | none => some (st, w, [])
    match joined with
    | none => (st, w, [])
    | some (st1, w1, effs1) =>
        match before with
        | some b =>
            if after ≠ some b then
              if (dget st1.temp_channels b).isSome then
                let member_count := (dget w1.platform b).elim 0 ChannelInfo.member_count
                let lr := handle_temp_channel_leave st1 b guild_id member_count
                            now leave_fetch fresh
                (lr.1, w1, effs1 ++ lr.2)
              else (st1, w1, effs1)
            else (st1, w1, effs1)
        | none => (st1, w1, effs1)

/-! ## Derived observations -/

/-- A representative enabled guild configuration. -/
def sampleConfig : GuildConfig :=
  { trigger_channel_id := 100, category_id := 200, delete_delay_seconds := 20,
    user_cooldown_seconds := 10, private_vc_role_id := none,
    force_private := false, min_session_minutes := 0 }

/-- The manager's state right after `__init__`: every dict empty. -/
def emptyState : BotState := ⟨[], [], [], [], []⟩

/-- A platform with one guild holding the configured category. -/
def sampleWorld : World := ⟨[], [], [1], [(1, 200)]⟩

/-- A live-looking record for channel 300, created at time 500. -/
def sampleRecord : DbRecord :=
  { guild_id := 7, channel_id := 300, trigger_channel_id := 100,
    category_id := 200, creator_user_id := 42, creator_username := "alice",
    created_at := 500, is_private := false, owner_user_id := none,
    owner_username := none, deleted_at := none, total_lifetime_seconds := none }

/-- A sequence of `check_user_cooldown` calls for one (guild, user),
threading the map and collecting each call's verdict in order. -/
def cooldown_run (uc : List ((Nat × Nat) × Int)) (user_id guild_id : Nat)
    (c : Int) : List Int → List ((Nat × Nat) × Int) × List Bool
  | [] => (uc, [])
  | t :: ts =>
      let s := check_user_cooldown uc user_id guild_id c t
      let r := cooldown_run s.2 user_id guild_id c ts
      (r.1, s.1 :: r.2)

/-- The body of `check_guild_rate_limit` acting on one guild's bare
timestamp list: purge entries at or past 60 seconds of age, then reject
at the cap or append the call time. -/
def window_step (win : List Int) (m : Nat) (now : Int) : Bool × List Int :=
  let purged := win.filter (fun s => decide (now - 60 < s))
  if m ≤ purged.length then (false, purged) else (true, purged ++ [now])

/-- A sequence of window steps, returning the final window and the list
of accepted call times in order. -/
def win_run (win : List Int) (m : Nat) : List Int → List Int × List Int
  | [] => (win, [])
  | t :: ts =>
      let s := window_step win m t
      let r := win_run s.2 m ts
      (r.1, (if s.1 then [t] else []) ++ r.2)

/-- A sequence of `check_guild_rate_limit` calls for one guild, threading
the map and returning the accepted call times in order. -/
def rate_limit_run (rl : List (Nat × List Int)) (g : Nat) (m : Nat) :
    List Int → List (Nat × List Int) × List Int
  | [] => (rl, [])
  | t :: ts =>
      let s := check_guild_rate_limit rl g m t
      let r := rate_limit_run s.2 g m ts
      (r.1, (if s.1 then [t] else []) ++ r.2)

/-- How many times of `A` lie in the trailing window `(T − 60, T]`. -/
def window_count (A : List Int) (T : Int) : Nat :=
  (A.filter (fun s => decide (T - 60 < s ∧ s ≤ T))).length

theorem dget_dset_self {κ α : Type} [DecidableEq κ] (m : List (κ × α)) (k : κ) (v : α) :
    dget (dset m k v) k = some v := by
  induction m with
  | nil => simp [dget, dset]
  | cons p rest ih =>
    by_cases h : p.1 = k
    · simp [dget, dset, h]
    · simp [dget, dset, h, ih]

theorem dget_dset_ne {κ α : Type} [DecidableEq κ] (m : List (κ × α)) (k k' : κ) (v : α)
    (h : k ≠ k') : dget (dset m k' v) k = dget m k := by
  induction m with
  | nil => simp [dget, dset, Ne.symm h]
  | cons p rest ih =>
    by_cases hp : p.1 = k'
    · simp [dget, dset, hp, Ne.symm h]
    · by_cases hk : p.1 = k
      · simp [dget, dset, hp, hk, h, Ne.symm h]
      · simp [dget, dset, hp, hk, ih]

theorem dget_ddel_self {κ α : Type} [DecidableEq κ] (m : List (κ × α)) (k : κ) :
    dget (ddel m k) k = none := by
  induction m with
  | nil => simp [dget, ddel]
  | cons p rest ih =>
    by_cases h : p.1 = k
    · simp [ddel, h, ih]
    · simp [dget, ddel, h, ih]

theorem dget_ddel_ne {κ α : Type} [DecidableEq κ] (m : List (κ × α)) (k k' : κ)
    (h : k ≠ k') : dget (ddel m k') k = dget m k := by
  induction m with
  | nil => simp [dget, ddel]
  | cons p rest ih =>
    by_cases hp : p.1 = k'
    · simp [dget, ddel, hp, ih, Ne.symm h]
    · by_cases hk : p.1 = k
      · simp [dget, ddel, hp, hk, h, Ne.symm h]
      · simp [dget, ddel, hp, hk, ih]

theorem keys_ddel_sublist {κ α : Type} [DecidableEq κ] (m : List (κ × α)) (k : κ) :
    (keys (ddel m k)).Sublist (keys m) := by
  induction m with
  | nil => simp [ddel, keys]
  | cons p rest ih =>
    by_cases h : p.1 = k
    · simpa [ddel, h, keys] using ih.trans (List.sublist_cons_self _ _)
    · simpa [ddel, h, keys] using ih.cons₂ p.1

theorem nodupKeys_ddel {κ α : Type} [DecidableEq κ] (m : List (κ × α)) (k : κ)
    (h : NodupKeys m) : NodupKeys (ddel m k) :=
  (keys_ddel_sublist m k).nodup h

theorem mem_keys_dset {κ α : Type} [DecidableEq κ] (m : List (κ × α)) (k k' : κ) (v : α)
    (h : k' ∈ keys (dset m k v)) : k' = k ∨ k' ∈ keys m := by
  induction m with
  | nil => simpa [dset, keys] using h
  | cons p rest ih =>
    by_cases hp : p.1 = k
    · rcases (by simpa [dset, hp, keys] using h) with h1 | h1
      · exact Or.inl h1
      · exact Or.inr (by simp [keys, h1])
    · rcases (by simpa [dset, hp, keys] using h) with h1 | h1
      · exact Or.inr (by simp [keys, h1])
      · rcases ih (by simpa [keys] using h1) with h2 | h2
        · exact Or.inl h2
        · exact Or.inr (by simp [keys]; exact Or.inr (by simpa [keys] using h2))

theorem nodupKeys_dset {κ α : Type} [DecidableEq κ] (m : List (κ × α)) (k : κ) (v : α)
    (h : NodupKeys m) : NodupKeys (dset m k v) := by
  induction m with
  | nil => simp [dset, NodupKeys, keys]
  | cons p rest ih =>
    have hh : (p.1 :: keys rest).Nodup := h
    have hnot : p.1 ∉ keys rest := (List.nodup_cons.mp hh).1
    have hrest : NodupKeys rest := (List.nodup_cons.mp hh).2
    by_cases hp : p.1 = k
    · subst hp
      have hkeys : keys (dset (p :: rest) p.1 v) = p.1 :: keys rest := by
        simp [dset, keys]
      unfold NodupKeys
      rw [hkeys]
      exact List.nodup_cons.mpr ⟨hnot, hrest⟩
    · have htail : NodupKeys (dset rest k v) := ih hrest
      have hkeys : keys (dset (p :: rest) k v) = p.1 :: keys (dset rest k v) := by
        simp [dset, hp, keys]
      unfold NodupKeys
      rw [hkeys]
      refine List.nodup_cons.mpr ⟨?_, htail⟩
      intro hmem
      rcases mem_keys_dset rest k p.1 v hmem with h1 | h1
      · exact hp h1
      · exact hnot h1

/-! ## Claim theorems -/

/-- C7 counterexample: with a stale cached config present, a failing
storage fetch makes `get_guild_config` propagate the error instead of
returning the last cached value, refuting the claimed fallback. -/
theorem C7_cex :
    get_guild_config [(1, ⟨sampleConfig, 0⟩)] 1 1000 FetchOutcome.failure
      = Except.error () := by rfl

/-- C7 amended: when the cached entry is fresher than 300 seconds it is
returned with no storage I/O (the result is the same for every fetch
outcome and the cache is unchanged); when the fetch runs and the storage
fails, the error propagates — even when a stale cached value exists. -/
theorem C7_config_fallback (cache : List (Nat × CacheEntry)) (gid : Nat)
    (now : Int) (entry : CacheEntry) :
    (dget cache gid = some entry → now - entry.timestamp < CACHE_DURATION →
      ∀ fetch, get_guild_config cache gid now fetch
        = Except.ok (some entry.config, cache)) ∧
    ((∀ e, dget cache gid = some e → ¬ now - e.timestamp < CACHE_DURATION) →
      get_guild_config cache gid now FetchOutcome.failure = Except.error ()) := by
  constructor
  · intro h1 h2 fetch
    simp [get_guild_config, h1, h2]
  · intro h
    unfold get_guild_config
    cases hc : dget cache gid with
    | none => simp [fetch_and_cache]
    | some e => simp [h e hc, fetch_and_cache]

/-- C7 witness: the fresh-cache conjunct applied at a concrete input. -/
theorem C7_config_fallback_witness :
    get_guild_config [(1, ⟨sampleConfig, 900⟩)] 1 1000 FetchOutcome.failure
      = Except.ok (some sampleConfig, [(1, ⟨sampleConfig, 900⟩)]) :=
  (C7_config_fallback [(1, ⟨sampleConfig, 900⟩)] 1 1000 ⟨sampleConfig, 900⟩).1
    (by decide) (by decide) FetchOutcome.failure

/-- C8: a voice-state update whose member is a bot account returns
immediately: the in-memory state, the persistent store and the platform
are all unchanged and no effect is performed. -/
theorem C8_bots_inert (st : BotState) (w : World) (member_id : Nat)
    (member_roles : List Nat) (member_name : String) (guild_id : Nat)
    (before after : Option Nat) (now : Int) (join_fetch : FetchOutcome)
    (create_outcome : Option Nat) (insert_ok move_ok rollback_ok : Bool)
    (leave_fetch : FetchOutcome) (fresh : TaskHandle) :
    on_voice_state_update st w member_id true member_roles member_name guild_id
      before after now join_fetch create_outcome insert_ok move_ok rollback_ok
      leave_fetch fresh = (st, w, []) := by
  simp [on_voice_state_update]

/-- C9: a `check_user_cooldown` call for a (guild, user) still inside its
cooldown window returns `false` and leaves `user_cooldowns` exactly as it
was, so rejected attempts never postpone the next admissible creation. -/
theorem C9_rejected_cooldown_frame (uc : List ((Nat × Nat) × Int))
    (user_id guild_id : Nat) (c now last : Int)
    (hlast : dget uc (guild_id, user_id) = some last)
    (hwin : now - last < c) :
    check_user_cooldown uc user_id guild_id c now = (false, uc) := by
  simp [check_user_cooldown, hlast, hwin]

/-- C9 witness: a concrete in-window rejection. -/
theorem C9_rejected_cooldown_frame_witness :
    dget [((1, 42), (100 : Int))] (1, 42) = some 100 ∧
    (105 : Int) - 100 < 10 ∧
    check_user_cooldown [((1, 42), 100)] 42 1 10 105 = (false, [((1, 42), 100)]) :=
  ⟨by decide, by decide,
   C9_rejected_cooldown_frame [((1, 42), 100)] 42 1 10 105 100 (by decide) (by decide)⟩

/-- C10: when the deletion timer fires and `bot.get_channel` resolves no
channel, `schedule_channel_deletion` returns without writing to the
store, without deleting anything, and without removing the channel's
`temp_channels` or `deletion_tasks` entries. -/
theorem C10_unresolved_channel_no_op (st : BotState) (w : World)
    (channel_id : Nat) (now : Int) (delete_ok : Bool)
    (h : dget w.platform channel_id = none) :
    schedule_channel_deletion st w channel_id now delete_ok = (st, w, []) := by
  simp [schedule_channel_deletion, h]

/-- C10 witness: a concrete firing for a channel the platform cannot
resolve, with stale tracking entries present. -/
theorem C10_unresolved_channel_no_op_witness :
    dget sampleWorld.platform 300 = none ∧
    schedule_channel_deletion
        { emptyState with temp_channels := [(300, 500)],
                          deletion_tasks := [(300, ⟨9, false⟩)] }
        sampleWorld 300 1000 true
      = ({ emptyState with temp_channels := [(300, 500)],
                           deletion_tasks := [(300, ⟨9, false⟩)] },
         sampleWorld, []) :=
  ⟨by decide,
   C10_unresolved_channel_no_op
     { emptyState with temp_channels := [(300, 500)],
                       deletion_tasks := [(300, ⟨9, false⟩)] }
     sampleWorld 300 1000 true (by decide)⟩

/-- C5: with a successful consumption recorded at time T and cooldown c,
every further call strictly before T + c is rejected and leaves the
recorded time at T; the call at exactly T + c succeeds (the comparison is
strict); and a zero-second cooldown always succeeds when time does not
run backwards. -/
theorem C5_cooldown_monotonic (uc : List ((Nat × Nat) × Int))
    (user_id guild_id : Nat) (c T : Int) (ts : List Int)
    (hT : dget uc (guild_id, user_id) = some T)
    (hts : ∀ t ∈ ts, t < T + c) :
    (∀ b ∈ (cooldown_run uc user_id guild_id c ts).2, b = false) ∧
    dget (cooldown_run uc user_id guild_id c ts).1 (guild_id, user_id) = some T ∧
    (check_user_cooldown uc user_id guild_id c (T + c)).1 = true ∧
    (∀ (uc' : List ((Nat × Nat) × Int)) (now' : Int),
        (∀ last, dget uc' (guild_id, user_id) = some last → last ≤ now') →
        (check_user_cooldown uc' user_id guild_id 0 now').1 = true) := by
  refine ⟨?_, ?_, ?_, ?_⟩
  · induction ts generalizing uc with
    | nil => simp [cooldown_run]
    | cons t rest ih =>
      intro b hb
      have ht : t - T < c := by
        have := hts t (by simp)
        omega
      have hstep : check_user_cooldown uc user_id guild_id c t = (false, uc) := by
        simp [check_user_cooldown, hT, ht]
      rcases (by simpa [cooldown_run, hstep] using hb : b = false ∨
          b ∈ (cooldown_run uc user_id guild_id c rest).2) with h | h
      · exact h
      · exact ih uc hT (fun u hu => hts u (by simp [hu])) b h
  · induction ts generalizing uc with
    | nil => simpa [cooldown_run] using hT
    | cons t rest ih =>
      have ht : t - T < c := by
        have := hts t (by simp)
        omega
      have hstep : check_user_cooldown uc user_id guild_id c t = (false, uc) := by
        simp [check_user_cooldown, hT, ht]
      simpa [cooldown_run, hstep] using
        ih uc hT (fun u hu => hts u (by simp [hu]))
  · simp [check_user_cooldown, hT]
  · intro uc' now' hle
    cases hc' : dget uc' (guild_id, user_id) with
    | none => simp [check_user_cooldown, hc']
    | some last =>
      have h1 := hle last hc'
      have hnl : ¬ now' - last < 0 := by omega
      have hnl' : ¬ now' < last := by omega
      simp [check_user_cooldown, hc', hnl, hnl']

/-- C5 witness: last creation at 100, cooldown 10; calls at 104, 107 and
109 are all rejected and keep the stored time, the call at 110 succeeds,
and a zero-cooldown call succeeds. -/
theorem C5_cooldown_monotonic_witness :
    dget [((1, 42), (100 : Int))] (1, 42) = some 100 ∧
    (∀ t ∈ [(104 : Int), 107, 109], t < 100 + 10) ∧
    (∀ b ∈ (cooldown_run [((1, 42), 100)] 42 1 10 [104, 107, 109]).2, b = false) ∧
    dget (cooldown_run [((1, 42), 100)] 42 1 10 [104, 107, 109]).1 (1, 42) = some 100 ∧
    (check_user_cooldown [((1, 42), 100)] 42 1 10 110).1 = true ∧
    (check_user_cooldown [((1, 42), 100)] 42 1 0 105).1 = true := by
  have h := C5_cooldown_monotonic [((1, 42), 100)] 42 1 10 100 [104, 107, 109]
    (by decide) (by decide)
  exact ⟨by decide, by decide, h.1, h.2.1, h.2.2.1,
    h.2.2.2 [((1, 42), 100)] 105 (by decide)⟩

/-- C6: `deletion_tasks` keeps one handle per channel (key distinctness is
preserved), and an empty-transition for a channel already holding a
pending (not done) task first emits that task's cancellation — any
install comes after it, installs only the fresh task, and the channel
afterwards maps to nothing or to the fresh task, never to the old one's
still-pending handle. -/
theorem C6_single_pending_timer (st : BotState) (channel_id guild_id : Nat)
    (member_count : Nat) (now : Int) (fetch : FetchOutcome) (fresh : TaskHandle)
    (old : TaskHandle)
    (hnodup : NodupKeys st.deletion_tasks)
    (hold : dget st.deletion_tasks channel_id = some old)
    (hpending : old.done = false) :
    NodupKeys (handle_temp_channel_leave st channel_id guild_id member_count now
        fetch fresh).1.deletion_tasks ∧
    (∃ rest, (handle_temp_channel_leave st channel_id guild_id member_count now
        fetch fresh).2 = Effect.cancelTask old.tid :: rest ∧
      ∀ e ∈ rest, ∃ d, e = Effect.installTask fresh.tid channel_id d) ∧
    (dget (handle_temp_channel_leave st channel_id guild_id member_count now
        fetch fresh).1.deletion_tasks channel_id = none ∨
     dget (handle_temp_channel_leave st channel_id guild_id member_count now
        fetch fresh).1.deletion_tasks channel_id = some fresh) := by
  have hcp : cancel_pending_task st.deletion_tasks channel_id
      = (ddel st.deletion_tasks channel_id, [Effect.cancelTask old.tid]) := by
    simp [cancel_pending_task, hold, hpending]
  have hdel : NodupKeys (ddel st.deletion_tasks channel_id) :=
    nodupKeys_ddel _ _ hnodup
  by_cases hm : member_count = 0
  · cases hg : get_guild_config st.config_cache guild_id now fetch with
    | error e =>
      refine ⟨?_, ⟨[], ?_, by simp⟩, Or.inl ?_⟩
      · simpa [handle_temp_channel_leave, hcp, hm, hg] using hdel
      · simp [handle_temp_channel_leave, hcp, hm, hg]
      · simp [handle_temp_channel_leave, hcp, hm, hg, dget_ddel_self]
    | ok pr =>
      obtain ⟨cfgOpt, cache1⟩ := pr
      cases cfgOpt with
      | some cfg =>
        refine ⟨?_,
          ⟨[Effect.installTask fresh.tid channel_id cfg.delete_delay_seconds], ?_, ?_⟩,
          Or.inr ?_⟩
        · simpa [handle_temp_channel_leave, hcp, hm, hg] using
            nodupKeys_dset _ channel_id fresh hdel
        · simp [handle_temp_channel_leave, hcp, hm, hg]
        · intro e he
          rw [List.mem_singleton] at he
          subst he
          exact ⟨_, rfl⟩
        · simp [handle_temp_channel_leave, hcp, hm, hg, dget_dset_self]
      | none =>
        refine ⟨?_, ⟨[Effect.installTask fresh.tid channel_id 20], ?_, ?_⟩, Or.inr ?_⟩
        · simpa [handle_temp_channel_leave, hcp, hm, hg] using
            nodupKeys_dset _ channel_id fresh hdel
        · simp [handle_temp_channel_leave, hcp, hm, hg]
        · intro e he
          rw [List.mem_singleton] at he
          subst he
          exact ⟨_, rfl⟩
        · simp [handle_temp_channel_leave, hcp, hm, hg, dget_dset_self]
  · refine ⟨?_, ⟨[], ?_, by simp⟩, Or.inl ?_⟩
    · simpa [handle_temp_channel_leave, hcp, hm] using hdel
    · simp [handle_temp_channel_leave, hcp, hm]
    · simp [handle_temp_channel_leave, hcp, hm, dget_ddel_self]

/-- C6 witness: an empty transition for channel 300 with a pending task 9
installed: the cancel of task 9 precedes the install of fresh task 10. -/
theorem C6_single_pending_timer_witness :
    NodupKeys ([(300, (⟨9, false⟩ : TaskHandle))]) ∧
    dget [(300, (⟨9, false⟩ : TaskHandle))] 300 = some ⟨9, false⟩ ∧
    (NodupKeys (handle_temp_channel_leave
        { emptyState with deletion_tasks := [(300, ⟨9, false⟩)] }
        300 1 0 1000 (FetchOutcome.row sampleConfig) ⟨10, false⟩).1.deletion_tasks ∧
     (∃ rest, (handle_temp_channel_leave
        { emptyState with deletion_tasks := [(300, ⟨9, false⟩)] }
        300 1 0 1000 (FetchOutcome.row sampleConfig) ⟨10, false⟩).2
          = Effect.cancelTask 9 :: rest ∧
        ∀ e ∈ rest, ∃ d, e = Effect.installTask 10 300 d) ∧
     (dget (handle_temp_channel_leave
        { emptyState with deletion_tasks := [(300, ⟨9, false⟩)] }
        300 1 0 1000 (FetchOutcome.row sampleConfig) ⟨10, false⟩).1.deletion_tasks 300
          = none ∨
      dget (handle_temp_channel_leave
        { emptyState with deletion_tasks := [(300, ⟨9, false⟩)] }
        300 1 0 1000 (FetchOutcome.row sampleConfig) ⟨10, false⟩).1.deletion_tasks 300
          = some ⟨10, false⟩)) :=
  ⟨by decide, by decide,
   C6_single_pending_timer
     { emptyState with deletion_tasks := [(300, ⟨9, false⟩)] }
     300 1 0 1000 (FetchOutcome.row sampleConfig) ⟨10, false⟩ ⟨9, false⟩
     (by decide) (by decide) (by decide)⟩

/-- C3 counterexample: with the guild's rate window already at the cap and
the user not on cooldown, the trigger join is rejected with no creation
effect — yet `user_cooldowns` now records the attempt, so the anti-abuse
state is not as if the attempt had not happened. -/
theorem C3_atomic_rejection_cex :
    (handle_trigger_join
        { emptyState with guild_rate_limits := [(1, [950, 960, 970, 980, 990])] }
        sampleWorld 42 [] "alice" 1 sampleConfig 1000 (some 300) true true
        true).2.2 = [] ∧
    (handle_trigger_join
        { emptyState with guild_rate_limits := [(1, [950, 960, 970, 980, 990])] }
        sampleWorld 42 [] "alice" 1 sampleConfig 1000 (some 300) true true
        true).1.user_cooldowns
      ≠ ({ emptyState with
            guild_rate_limits := [(1, [950, 960, 970, 980, 990])] } :
          BotState).user_cooldowns := by
  decide

/-- C3 amended: the user-cooldown check runs first and the guild
rate-limit check second, both before any channel-creation side effect; a
cooldown rejection returns with the entire state unchanged and no effect;
a guild rate-limit rejection performs no creation effect, inserts no
record, leaves `temp_channels` untouched and appends no timestamp to the
guild's window (it only purges expired entries) — but the user's cooldown
timestamp has already been consumed and is left set to the attempt time. -/
theorem C3_atomic_rejection_amended (st : BotState) (w : World) (member_id : Nat)
    (member_roles : List Nat) (member_name : String) (guild_id : Nat)
    (config : GuildConfig) (now : Int) (create_outcome : Option Nat)
    (insert_ok move_ok rollback_ok : Bool) :
    ((check_user_cooldown st.user_cooldowns member_id guild_id
        config.user_cooldown_seconds now).1 = false →
      handle_trigger_join st w member_id member_roles member_name guild_id
        config now create_outcome insert_ok move_ok rollback_ok = (st, w, [])) ∧
    ((check_user_cooldown st.user_cooldowns member_id guild_id
        config.user_cooldown_seconds now).1 = true →
     (check_guild_rate_limit st.guild_rate_limits guild_id 5 now).1 = false →
      handle_trigger_join st w member_id member_roles member_name guild_id
        config now create_outcome insert_ok move_ok rollback_ok =
        ({ st with
            user_cooldowns := dset st.user_cooldowns (guild_id, member_id) now,
            guild_rate_limits :=
              (check_guild_rate_limit st.guild_rate_limits guild_id 5 now).2 },
         w, [])) ∧
    ((check_guild_rate_limit st.guild_rate_limits guild_id 5 now).1 = false →
      ∀ t ∈ (dget (check_guild_rate_limit st.guild_rate_limits guild_id 5 now).2
              guild_id).getD [],
        t ∈ (dget st.guild_rate_limits guild_id).getD []) := by
  refine ⟨?_, ?_, ?_⟩
  · intro h1
    have huc : (check_user_cooldown st.user_cooldowns member_id guild_id
        config.user_cooldown_seconds now).2 = st.user_cooldowns := by
      unfold check_user_cooldown at h1 ⊢
      rcases hd : dget st.user_cooldowns (guild_id, member_id) with _ | last
      · simp [hd] at h1
      · simp only [hd] at h1 ⊢
        by_cases hw : now - last < config.user_cooldown_seconds
        · simp [hw]
        · simp [hw] at h1
    simp [handle_trigger_join, h1, huc]
  · intro h1 h2
    have huc : (check_user_cooldown st.user_cooldowns member_id guild_id
        config.user_cooldown_seconds now).2
        = dset st.user_cooldowns (guild_id, member_id) now := by
      unfold check_user_cooldown at h1 ⊢
      rcases hd : dget st.user_cooldowns (guild_id, member_id) with _ | last
      · simp [hd]
      · simp only [hd] at h1 ⊢
        by_cases hw : now - last < config.user_cooldown_seconds
        · simp [hw] at h1
        · simp [hw]
    simp [handle_trigger_join, h1, h2, huc]
  · intro h2 t ht
    unfold check_guild_rate_limit at h2 ht
    by_cases hlen : 5 ≤ (((dget st.guild_rate_limits guild_id).getD []).filter
        (fun ts => decide (now - 60 < ts))).length
    · simp only [hlen, if_true, dget_dset_self, Option.getD_some] at ht
      exact List.mem_of_mem_filter ht
    · simp [hlen] at h2

/-- C3 witness: the cooldown-rejection conjunct at a concrete input: a
user inside the cooldown window is rejected and the state is untouched. -/
theorem C3_atomic_rejection_amended_witness :
    (check_user_cooldown
        ({ emptyState with user_cooldowns := [((1, 42), 995)] } : BotState).user_cooldowns
        42 1 sampleConfig.user_cooldown_seconds 1000).1 = false ∧
    handle_trigger_join { emptyState with user_cooldowns := [((1, 42), 995)] }
        sampleWorld 42 [] "alice" 1 sampleConfig 1000 (some 300) true true true
      = ({ emptyState with user_cooldowns := [((1, 42), 995)] }, sampleWorld, []) :=
  ⟨by decide,
   (C3_atomic_rejection_amended { emptyState with user_cooldowns := [((1, 42), 995)] }
      sampleWorld 42 [] "alice" 1 sampleConfig 1000 (some 300) true true true).1
     (by decide)⟩

theorem mem_db_finalize (db : List DbRecord) (ch : Nat) (now lifetime : Int)
    (r : DbRecord) (hr : r ∈ db_finalize db ch now lifetime)
    (hid : r.channel_id = ch) :
    r.deleted_at = some now ∧ r.total_lifetime_seconds = some lifetime := by
  unfold db_finalize at hr
  rcases List.mem_map.mp hr with ⟨s, hs, hmap⟩
  by_cases h : s.channel_id = ch
  · subst hmap
    simp [h]
  · rw [if_neg h] at hmap
    subst hmap
    exact absurd hid h

theorem mem_db_finalize_if_live (db : List DbRecord) (ch : Nat) (now lifetime : Int)
    (r : DbRecord) (hr : r ∈ db_finalize_if_live db ch now lifetime)
    (hid : r.channel_id = ch) :
    (r.deleted_at = some now ∧ r.total_lifetime_seconds = some lifetime) ∨
    (r ∈ db ∧ r.deleted_at ≠ none) := by
  unfold db_finalize_if_live at hr
  rcases List.mem_map.mp hr with ⟨s, hs, hmap⟩
  by_cases h : s.channel_id = ch ∧ s.deleted_at = none
  · left
    subst hmap
    simp [h]
  · right
    rw [if_neg h] at hmap
    subst hmap
    refine ⟨hs, ?_⟩
    intro hnone
    exact h ⟨hid, hnone⟩

theorem mem_db_mark_deleted (db : List DbRecord) (ch : Nat) (now : Int)
    (r : DbRecord) (hr : r ∈ db_mark_deleted db ch now)
    (hid : r.channel_id = ch) : r.deleted_at = some now := by
  unfold db_mark_deleted at hr
  rcases List.mem_map.mp hr with ⟨s, hs, hmap⟩
  by_cases h : s.channel_id = ch
  · subst hmap
    simp [h]
  · rw [if_neg h] at hmap
    subst hmap
    exact absurd hid h

theorem db_mark_deleted_lifetime_column (db : List DbRecord) (ch : Nat) (now : Int) :
    (db_mark_deleted db ch now).map DbRecord.total_lifetime_seconds
      = db.map DbRecord.total_lifetime_seconds := by
  unfold db_mark_deleted
  rw [List.map_map]
  apply List.map_congr_left
  intro r _
  by_cases h : r.channel_id = ch <;> simp [h]

/-- C2 counterexample: two violations at concrete inputs. First,
reconciliation finalizes a live-looking record whose guild is gone by
setting `deleted_at` only: the record created at 500 and finalized at
1000 ends with `total_lifetime_seconds = null`, not the 500 seconds the
claim requires of every finalization path. Second, the lifetime is not
written exactly once: when the timer's platform delete raises (tracking
entries kept), a later firing re-runs the unguarded UPDATE — the same
record carries lifetime 500 after the first write and 600 after the
second. -/
theorem C2_lifetime_accounting_cex :
    ((cleanup_orphaned_channels emptyState ⟨[sampleRecord], [], [1], []⟩ 1000 []).2.db
      = [{ sampleRecord with deleted_at := some 1000 }] ∧
    ¬ (cleanup_orphaned_channels emptyState ⟨[sampleRecord], [], [1], []⟩
        1000 []).2.db.all
        (fun r => r.total_lifetime_seconds == some (1000 - r.created_at)) = true) ∧
    ((schedule_channel_deletion { emptyState with temp_channels := [(300, 500)] }
        ⟨[sampleRecord], [(300, ⟨1, 0⟩)], [1], []⟩ 300 1000
        false).2.1.db.map DbRecord.total_lifetime_seconds = [some 500] ∧
     (schedule_channel_deletion
        (schedule_channel_deletion { emptyState with temp_channels := [(300, 500)] }
          ⟨[sampleRecord], [(300, ⟨1, 0⟩)], [1], []⟩ 300 1000 false).1
        (schedule_channel_deletion { emptyState with temp_channels := [(300, 500)] }
          ⟨[sampleRecord], [(300, ⟨1, 0⟩)], [1], []⟩ 300 1000 false).2.1
        300 1100 true).2.1.db.map DbRecord.total_lifetime_seconds = [some 600]) := by
  decide

/-- C2 amended: the deletion timer (with the in-memory `created_at`
present) and the manual-deletion handler write
`total_lifetime_seconds = T1 − T0` together with `deleted_at = T1`; the
manual handler leaves already-finalized records untouched, but the
timer's UPDATE is unguarded, so after a failed platform delete a later
firing writes the lifetime again (each write equal to its own T1 − T0) —
it is not set exactly once. Reconciliation writes the same lifetime when
it deletes a still-existing empty channel; when the guild no longer
exists, or the guild exists but the channel is gone from it, it sets
`deleted_at` without touching the lifetime column at all. -/
theorem C2_lifetime_accounting_amended (st : BotState) (w : World) (ch : Nat)
    (T0 T1 : Int) (r0 : DbRecord) (delete_fails : List Nat) :
    ((dget st.temp_channels ch = some T0) →
     ∀ info, dget w.platform ch = some info → info.member_count = 0 →
     ∀ r ∈ (schedule_channel_deletion st w ch T1 true).2.1.db, r.channel_id = ch →
       r.deleted_at = some T1 ∧ r.total_lifetime_seconds = some (T1 - T0)) ∧
    ((dget st.temp_channels ch = some T0) →
     ∀ r ∈ (on_guild_channel_delete st w ch true T1).2.1.db, r.channel_id = ch →
       (r.deleted_at = some T1 ∧ r.total_lifetime_seconds = some (T1 - T0)) ∨
       (r ∈ w.db ∧ r.deleted_at ≠ none)) ∧
    (r0.guild_id ∈ w.guilds →
     ∀ info, dget w.platform r0.channel_id = some info →
       info.guild_id = r0.guild_id → info.member_count = 0 →
       r0.channel_id ∉ delete_fails →
     ∀ r ∈ (cleanup_one st w T1 delete_fails r0).2.db, r.channel_id = r0.channel_id →
       r.deleted_at = some T1 ∧
       r.total_lifetime_seconds = some (T1 - r0.created_at)) ∧
    (r0.guild_id ∉ w.guilds →
     (cleanup_one st w T1 delete_fails r0).2.db.map DbRecord.total_lifetime_seconds
       = w.db.map DbRecord.total_lifetime_seconds ∧
     ∀ r ∈ (cleanup_one st w T1 delete_fails r0).2.db, r.channel_id = r0.channel_id →
       r.deleted_at = some T1) ∧
    (r0.guild_id ∈ w.guilds →
     channel_in_guild w r0.guild_id r0.channel_id = none →
     (cleanup_one st w T1 delete_fails r0).2.db.map DbRecord.total_lifetime_seconds
       = w.db.map DbRecord.total_lifetime_seconds ∧
     ∀ r ∈ (cleanup_one st w T1 delete_fails r0).2.db, r.channel_id = r0.channel_id →
       r.deleted_at = some T1) := by
  refine ⟨?_, ?_, ?_, ?_, ?_⟩
  · intro htc info hplat hmc r hr hid
    have hdb : (schedule_channel_deletion st w ch T1 true).2.1.db
        = db_finalize w.db ch T1 (T1 - T0) := by
      simp [schedule_channel_deletion, hplat, hmc, htc]
    rw [hdb] at hr
    exact mem_db_finalize w.db ch T1 (T1 - T0) r hr hid
  · intro htc r hr hid
    have hdb : (on_guild_channel_delete st w ch true T1).2.1.db
        = db_finalize_if_live w.db ch T1 (T1 - T0) := by
      simp [on_guild_channel_delete, htc]
    rw [hdb] at hr
    exact mem_db_finalize_if_live w.db ch T1 (T1 - T0) r hr hid
  · intro hg info hplat hgid hmc hdf r hr hid
    have hcg : channel_in_guild w r0.guild_id r0.channel_id = some info := by
      simp [channel_in_guild, hplat, hgid]
    have hdb : (cleanup_one st w T1 delete_fails r0).2.db
        = db_finalize w.db r0.channel_id T1 (T1 - r0.created_at) := by
      simp [cleanup_one, hg, hcg, hmc, hdf]
    rw [hdb] at hr
    exact mem_db_finalize w.db r0.channel_id T1 (T1 - r0.created_at) r hr hid
  · intro hg
    have hdb : (cleanup_one st w T1 delete_fails r0).2.db
        = db_mark_deleted w.db r0.channel_id T1 := by
      simp [cleanup_one, hg]
    constructor
    · rw [hdb]
      exact db_mark_deleted_lifetime_column w.db r0.channel_id T1
    · intro r hr hid
      rw [hdb] at hr
      exact mem_db_mark_deleted w.db r0.channel_id T1 r hr hid
  · intro hg hcg
    have hdb : (cleanup_one st w T1 delete_fails r0).2.db
        = db_mark_deleted w.db r0.channel_id T1 := by
      simp [cleanup_one, hg, hcg]
    constructor
    · rw [hdb]
      exact db_mark_deleted_lifetime_column w.db r0.channel_id T1
    · intro r hr hid
      rw [hdb] at hr
      exact mem_db_mark_deleted w.db r0.channel_id T1 r hr hid

/-- C2 witness: the timer path at a concrete firing: the record created
at 500 and finalized at 1000 carries `deleted_at = 1000` and
`total_lifetime_seconds = 500`. -/
theorem C2_lifetime_accounting_amended_witness :
    ({ sampleRecord with
        deleted_at := some 1000
        total_lifetime_seconds := some 500 } : DbRecord).deleted_at = some 1000 ∧
    ({ sampleRecord with
        deleted_at := some 1000
        total_lifetime_seconds := some 500 } : DbRecord).total_lifetime_seconds
      = some (1000 - 500 : Int) :=
  (C2_lifetime_accounting_amended
      { emptyState with temp_channels := [(300, 500)] }
      ⟨[sampleRecord], [(300, ⟨1, 0⟩)], [1], []⟩ 300 500 1000 sampleRecord []).1
    (by decide) ⟨1, 0⟩ (by decide) rfl
    { sampleRecord with
        deleted_at := some 1000
        total_lifetime_seconds := some 500 }
    (by decide) rfl

theorem check_guild_rate_limit_step (rl : List (Nat × List Int)) (g : Nat)
    (m : Nat) (now : Int) :
    check_guild_rate_limit rl g m now
      = ((window_step ((dget rl g).getD []) m now).1,
         dset rl g (window_step ((dget rl g).getD []) m now).2) := by
  unfold check_guild_rate_limit window_step
  by_cases h : m ≤ (((dget rl g).getD []).filter
      (fun s => decide (now - 60 < s))).length
  · simp [h]
  · simp [h]

theorem rate_limit_run_accepted (g : Nat) (m : Nat) (ts : List Int) :
    ∀ rl, (rate_limit_run rl g m ts).2 = (win_run ((dget rl g).getD []) m ts).2 := by
  induction ts with
  | nil => intro rl; rfl
  | cons t rest ih =>
    intro rl
    simp only [rate_limit_run, win_run, check_guild_rate_limit_step rl g m t]
    rw [ih (dset rl g (window_step ((dget rl g).getD []) m t).2)]
    rw [dget_dset_self]
    rfl

theorem win_run_bound (m : Nat) :
    ∀ (ts : List Int) (A : List Int) (t0 : Int),
      (∀ a ∈ A, a ≤ t0) →
      (∀ t ∈ ts, t0 ≤ t) →
      ts.Sorted (· ≤ ·) →
      (∀ T, window_count A T ≤ m) →
      ∀ T, window_count
          (A ++ (win_run (A.filter (fun s => decide (t0 - 60 < s))) m ts).2) T ≤ m := by
  intro ts
  induction ts with
  | nil =>
    intro A t0 hA hts hsort hbound T
    simpa [win_run] using hbound T
  | cons t rest ih =>
    intro A t0 hA hts hsort hbound T
    have ht0t : t0 ≤ t := hts t (by simp)
    have hAt : ∀ a ∈ A, a ≤ t := fun a ha => le_trans (hA a ha) ht0t
    have hrest_ge : ∀ u ∈ rest, t ≤ u := (List.sorted_cons.mp hsort).1
    have hrest_sort : rest.Sorted (· ≤ ·) := (List.sorted_cons.mp hsort).2
    have hpurge : (A.filter (fun s => decide (t0 - 60 < s))).filter
        (fun s => decide (t - 60 < s)) = A.filter (fun s => decide (t - 60 < s)) := by
      rw [List.filter_filter]
      apply List.filter_congr
      intro a ha
      by_cases h : t - 60 < a
      · have h0 : t0 - 60 < a := by omega
        simp [h, h0]
      · simp [h]
    by_cases hacc : m ≤ (A.filter (fun s => decide (t - 60 < s))).length
    · have hstep : window_step (A.filter (fun s => decide (t0 - 60 < s))) m t
          = (false, A.filter (fun s => decide (t - 60 < s))) := by
        unfold window_step
        simp only [hpurge]
        simp [hacc]
      have hih := ih A t hAt hrest_ge hrest_sort hbound T
      simp only [win_run, hstep]
      simpa using hih
    · have hstep : window_step (A.filter (fun s => decide (t0 - 60 < s))) m t
          = (true, A.filter (fun s => decide (t - 60 < s)) ++ [t]) := by
        unfold window_step
        simp only [hpurge]
        simp [hacc]
      have hA' : ∀ a ∈ A ++ [t], a ≤ t := by
        intro a ha
        rcases List.mem_append.mp ha with h | h
        · exact hAt a h
        · simp at h
          omega
      have hwin' : (A ++ [t]).filter (fun s => decide (t - 60 < s))
          = A.filter (fun s => decide (t - 60 < s)) ++ [t] := by
        rw [List.filter_append]
        simp
      have hbound' : ∀ U, window_count (A ++ [t]) U ≤ m := by
        intro U
        unfold window_count
        rw [List.filter_append]
        by_cases hin : U - 60 < t ∧ t ≤ U
        · have hsingle : [t].filter (fun s => decide (U - 60 < s ∧ s ≤ U)) = [t] := by
            simp [hin]
          have hsub : (A.filter (fun s => decide (U - 60 < s ∧ s ≤ U))).length
              ≤ (A.filter (fun s => decide (t - 60 < s))).length := by
            apply List.Sublist.length_le
            apply List.monotone_filter_right
            intro a ha
            have h1 := of_decide_eq_true ha
            exact decide_eq_true (by omega)
          have hlt : (A.filter (fun s => decide (t - 60 < s))).length < m :=
            Nat.lt_of_not_le hacc
          rw [hsingle, List.length_append]
          simp only [List.length_singleton]
          omega
        · have hsingle : [t].filter (fun s => decide (U - 60 < s ∧ s ≤ U)) = [] := by
            simp [hin]
          rw [hsingle, List.append_nil]
          exact hbound U
      have hih := ih (A ++ [t]) t hA' hrest_ge hrest_sort hbound' T
      rw [hwin'] at hih
      simp only [win_run, hstep]
      simpa [List.append_assoc] using hih

/-- C4: starting from a fresh process, over every time-ordered sequence of
`check_guild_rate_limit` calls for a guild, every trailing 60-second
window `(T − 60, T]` contains at most `max_per_minute` accepted calls,
whatever the arrival pattern; and a rejected call appends no timestamp —
the guild's stored window is exactly the purge of the previous one. -/
theorem C4_rate_limit_window (g : Nat) (m : Nat) (ts : List Int)
    (hsorted : ts.Sorted (· ≤ ·)) :
    (∀ T, window_count (rate_limit_run [] g m ts).2 T ≤ m) ∧
    (∀ (rl : List (Nat × List Int)) (now : Int),
        (check_guild_rate_limit rl g m now).1 = false →
        dget (check_guild_rate_limit rl g m now).2 g
          = some (((dget rl g).getD []).filter
              (fun s => decide (now - 60 < s)))) := by
  constructor
  · intro T
    rw [rate_limit_run_accepted]
    cases ts with
    | nil => simp [win_run, window_count]
    | cons t rest =>
      have hts : ∀ u ∈ t :: rest, t ≤ u := by
        intro u hu
        rcases List.mem_cons.mp hu with h | h
        · omega
        · exact (List.sorted_cons.mp hsorted).1 u h
      have h := win_run_bound m (t :: rest) [] t (by simp) hts hsorted
        (by intro U; simp [window_count]) T
      simpa [dget] using h
  · intro rl now hrej
    rw [check_guild_rate_limit_step] at hrej ⊢
    rw [dget_dset_self]
    unfold window_step at hrej ⊢
    by_cases h : m ≤ (((dget rl g).getD []).filter
        (fun s => decide (now - 60 < s))).length
    · simp [h]
    · simp [h] at hrej

/-- C4 witness: seven time-ordered calls against a cap of 5; the window
ending at 100 holds at most 5 acceptances. -/
theorem C4_rate_limit_window_witness :
    ([(0 : Int), 10, 20, 30, 40, 50, 55].Sorted (· ≤ ·)) ∧
    window_count (rate_limit_run [] 1 5 [0, 10, 20, 30, 40, 50, 55]).2 100 ≤ 5 :=
  ⟨by decide,
   (C4_rate_limit_window 1 5 [0, 10, 20, 30, 40, 50, 55] (by decide)).1 100⟩
